import Mathlib

/-!
Verification of topollama (src/index.js): a shallow embedding of the
program's core — the JS string operations it relies on, the size
formatter `formatSize`, the `ollama ps` table parser `getOllamaPsInfo`,
the registry merge `getRunningModels`, the CPU sampler `getCpuUsage`,
the GPU aggregate of `getSystemInfo`, the fixed-capacity history
buffers, and the refresh cycle `updateAll` — together with theorems
settling the specification's claims about them.

Conventions: JS numbers are modelled as exact rationals (`ℚ`) and tick
counters as integers; JS strings as `String`/`List Char`; a JS object
used as a string-keyed map as an association list whose assignment
overwrites an existing key in place; fallible collaborators (the
registry API, the OS counter source) as `Except` values supplied to the
cycle as inputs.
-/

/-- Whitespace as accepted by JS `trim` and the regex class `\s`
(space, tab, newline, carriage return, vertical tab, form feed). -/
def isJsWhitespace (c : Char) : Bool :=
  c == ' ' || c == '\t' || c == '\n' || c == '\r' ||
  c == Char.ofNat 11 || c == Char.ofNat 12

/-- JS `String.prototype.trim` on a character list: drop leading and
trailing whitespace. -/
def jsTrim (s : List Char) : List Char :=
  ((s.dropWhile isJsWhitespace).reverse.dropWhile isJsWhitespace).reverse

/-- JS `split('\n')`: split at every newline; the empty string yields
one empty piece, mirroring `"".split('\n') == [""]`. -/
def jsSplitLines : List Char → List (List Char)
  | [] => [[]]
  | c :: rest =>
    if c = '\n' then [] :: jsSplitLines rest
    else
      match jsSplitLines rest with
      | [] => [[c]]
      | l :: ls => (c :: l) :: ls

/-- JS `String.prototype.includes`: substring containment. -/
def jsIncludes (hay need : List Char) : Bool :=
  if need.isPrefixOf hay then true
  else
    match hay with
    | [] => false
    | _ :: rest => jsIncludes rest need

/-- JS `String.prototype.indexOf`: index of the first occurrence of
`need` in `hay`, or `-1` when absent. -/
def jsIndexOf (hay need : List Char) : Int :=
  if need.isPrefixOf hay then 0
  else
    match hay with
    | [] => -1
    | _ :: rest =>
      let r := jsIndexOf rest need
      if r = -1 then -1 else r + 1

/-- JS `String.prototype.substring(a, b)`: negative arguments clamp to
`0`, arguments beyond the length clamp to the length, and the two
endpoints are swapped when given out of order. -/
def jsSubstring (s : List Char) (a b : Int) : List Char :=
  let a' := min a.toNat s.length
  let b' := min b.toNat s.length
  (s.take (max a' b')).drop (min a' b')

/-- Decimal digit test, the regex class `\d`. -/
def isDigitChar (c : Char) : Bool :=
  '0' ≤ c && c ≤ '9'

/-- Value of a run of decimal digits, as read by JS `parseInt(_, 10)`. -/
def digitsToNat (ds : List Char) : Nat :=
  ds.foldl (fun acc c => 10 * acc + (c.toNat - '0'.toNat)) 0

/-- Leftmost match of the regex `/(\d+)%/`: the first maximal digit run
that is immediately followed by a percent sign, returned as a number;
`none` when the pattern does not occur. -/
def matchPct : List Char → Option Nat
  | [] => none
  | c :: rest =>
    if isDigitChar c then
      match (c :: rest).dropWhile isDigitChar with
      | '%' :: _ => some (digitsToNat ((c :: rest).takeWhile isDigitChar))
      | _ => matchPct rest
    else matchPct rest

/-- Leftmost match of the regex `/(\d+)%\s*U/` for a literal word `U`
(the source uses `GPU` and `CPU`): the first maximal digit run followed
by `%`, optional whitespace, then the word. -/
def matchPctBefore (word : List Char) : List Char → Option Nat
  | [] => none
  | c :: rest =>
    if isDigitChar c then
      match (c :: rest).dropWhile isDigitChar with
      | '%' :: afterPct =>
        if word.isPrefixOf (afterPct.dropWhile isJsWhitespace) then
          some (digitsToNat ((c :: rest).takeWhile isDigitChar))
        else matchPctBefore word rest
      | _ => matchPctBefore word rest
    else matchPctBefore word rest

/-- Fuel-driven integer logarithm: `floorLogAux base fuel b` counts how
often `b` can be divided by `base` before falling below it. The fuel is
only a structural-termination device; `fuel ≥ b` makes it inexhaustible. -/
def floorLogAux (base : Nat) : Nat → Nat → Nat
  | 0, _ => 0
  | fuel + 1, b => if b < base then 0 else floorLogAux base fuel (b / base) + 1

/-- `floor (log b / log base)` on positive integers, idealizing the
floating-point `Math.floor(Math.log b / Math.log base)` as exact. -/
def floorLog (base b : Nat) : Nat := floorLogAux base b b

/-- The unit names used by `formatSize`; an index past the end reads as
the string a JS array out-of-bounds access stringifies to. -/
def sizesList : List String := ["B", "KB", "MB", "GB", "TB"]

/-- `(b / 1024^i).toFixed(1)`: the scaled value rounded to the nearest
tenth, ties upward, printed with exactly one digit after the point.
Floating point is idealized as exact arithmetic. -/
def toFixedOne (b : Nat) (i : Nat) : String :=
  let d := 1024 ^ i
  let tenths := (20 * b + d) / (2 * d)
  toString (tenths / 10) ++ "." ++ toString (tenths % 10)

/-- `formatSize` from src/index.js lines 98-105. `none` models the
null / undefined / NaN inputs, which short-circuit to a dash. The unit
index `Math.floor(Math.log bytes / Math.log 1024)` is the integer
logarithm `floorLog 1024`, floating point idealized as exact. -/
def formatSize (bytes : Option Nat) : String :=
  match bytes with
  | none => "-"
  | some b =>
    if b = 0 then "0 B"
    else
      let i := floorLog 1024 b
      if i = 0 then toString b ++ " " ++ sizesList.getD i "undefined"
      else toFixedOne b i ++ " " ++ sizesList.getD i "undefined"

/-- One parsed row of `ollama ps` output: the committed-memory column
and the CPU / GPU percentages derived from the PROCESSOR column. -/
structure PsEntry where
  committedMem : String
  cpu : String
  gpu : String
deriving DecidableEq, Repr

/-- The JS object `modelData` keyed by model name, as an association
list in insertion order. -/
abbrev PsMap := List (String × PsEntry)

/-- JS object assignment `m[k] = v`: overwrite the existing binding in
place when the key is present, otherwise append the new binding. -/
def objInsert (m : PsMap) (k : String) (v : PsEntry) : PsMap :=
  if m.any (fun p => p.1 = k) then
    m.map (fun p => if p.1 = k then (k, v) else p)
  else m ++ [(k, v)]

/-- JS object read `m[k]`: the bound value, or `none` (undefined). -/
def objLookup (m : PsMap) (k : String) : Option PsEntry :=
  match m with
  | [] => none
  | p :: rest => if p.1 = k then some p.2 else objLookup rest k

/-- The PROCESSOR-column parse of src/index.js lines 225-237: a
descriptor naming GPU yields its trailing percentage (100% when none)
as the GPU share and 0% CPU; naming CPU is symmetric; anything else
yields 0% / 0%. Returns `(cpuUsage, gpuUsage)`. -/
def parseProcessor (processor : List Char) : String × String :=
  if jsIncludes processor ("GPU".toList) then
    match matchPctBefore ("GPU".toList) processor with
    | some n => ("0%", toString n ++ "%")
    | none => ("0%", "100%")
  else if jsIncludes processor ("CPU".toList) then
    match matchPctBefore ("CPU".toList) processor with
    | some n => (toString n ++ "%", "0%")
    | none => ("100%", "0%")
  else ("0%", "0%")

/-- One iteration of the data-row loop of src/index.js lines 215-249:
skip a blank row, slice the name / memory / processor columns at the
header-derived offsets, parse the processor descriptor, and record the
entry unless the trimmed name is empty. -/
def processRow (namePos idPos memPos processorPos untilPos : Int)
    (acc : PsMap) (line : List Char) : PsMap :=
  if jsTrim line = [] then acc
  else
    let name := jsTrim (jsSubstring line namePos idPos)
    let mem := jsTrim (jsSubstring line memPos processorPos)
    let processor := jsTrim (jsSubstring line processorPos untilPos)
    let cg := parseProcessor processor
    if name ≠ [] then
      objInsert acc (String.mk name) { committedMem := String.mk mem, cpu := cg.1, gpu := cg.2 }
    else acc

/-- Header validation of src/index.js lines 199-201: the header line
must contain all five column labels. -/
def headerOk (headerLine : List Char) : Bool :=
  jsIncludes headerLine ("NAME".toList) && jsIncludes headerLine ("ID".toList) &&
  jsIncludes headerLine ("SIZE".toList) && jsIncludes headerLine ("PROCESSOR".toList) &&
  jsIncludes headerLine ("UNTIL".toList)

/-- The stdout-parsing part of `getOllamaPsInfo` (src/index.js lines
189-251): trim and line-split the output, require at least two lines,
validate the header labels, derive the column offsets from the label
positions in the header, then fold the data rows into the name-keyed
map. Every branch returns a value; nothing throws. -/
def getOllamaPsInfo (stdout : String) : PsMap :=
  let lines := jsSplitLines (jsTrim stdout.toList)
  if lines.length < 2 then []
  else
    let headerLine := lines.headD []
    if !(headerOk headerLine) then []
    else
      let namePos := jsIndexOf headerLine ("NAME".toList)
      let idPos := jsIndexOf headerLine ("ID".toList)
      let memPos := jsIndexOf headerLine ("SIZE".toList)
      let processorPos := jsIndexOf headerLine ("PROCESSOR".toList)
      let untilPos := jsIndexOf headerLine ("UNTIL".toList)
      (lines.drop 1).foldl (processRow namePos idPos memPos processorPos untilPos) []

/-- The header line of the trimmed stdout, as the parser reads it. -/
def headerOf (stdout : String) : List Char :=
  (jsSplitLines (jsTrim stdout.toList)).headD []

/-- The name-column start offset the parser derives from the header. -/
def namePosOf (stdout : String) : Int :=
  jsIndexOf (headerOf stdout) ("NAME".toList)

/-- The id-column start offset the parser derives from the header. -/
def idPosOf (stdout : String) : Int :=
  jsIndexOf (headerOf stdout) ("ID".toList)

/-- One model as returned by the registry-listing API `ollama.list()`:
name, content digest, and on-disk size in bytes. -/
structure ListedModel where
  name : String
  digest : String
  size : Nat
deriving DecidableEq, Repr

/-- The per-model record built by `getRunningModels`
(src/index.js lines 275-288). -/
structure ModelRecord where
  name : String
  id : String
  diskSize : String
  usedMem : String
  cpu : String
  gpu : String
  isRunning : Bool
deriving DecidableEq, Repr

/-- The body of the `listResponse.models.map` of src/index.js lines
275-288: look the model's name up in the `ollama ps` map; copy the
live-usage fields when found, default them when not. -/
def mergeModel (psInfo : PsMap) (model : ListedModel) : ModelRecord :=
  let runningData := objLookup psInfo model.name
  { name := String.mk (jsSubstring model.name.toList 0 28),
    id := String.mk (jsSubstring model.digest.toList 0 12),
    diskSize := formatSize (some model.size),
    usedMem := match runningData with
      | some rd => rd.committedMem
      | none => "0 B",
    cpu := match runningData with
      | some rd => rd.cpu
      | none => "0%",
    gpu := match runningData with
      | some rd => rd.gpu
      | none => "0%",
    isRunning := runningData.isSome }

/-- The merge of `getRunningModels` on a successful API response. -/
def getRunningModels (models : List ListedModel) (psInfo : PsMap) : List ModelRecord :=
  models.map (mergeModel psInfo)

/-- `getRunningModels` including its API failure handling (src/index.js
lines 259-268): a rejected `ollama.list()` is caught and replaced by
the response `{ models := [] }`, so the cycle proceeds — against the
parser result it received independently — and yields the empty list. -/
def getRunningModelsFull (api : Except String (List ListedModel)) (psInfo : PsMap) :
    List ModelRecord :=
  match api with
  | .error _ => getRunningModels [] psInfo
  | .ok models => getRunningModels models psInfo

/-- One core's tick counters as sampled from `os.cpus()`: the idle
ticks and the sum of all tick categories. -/
structure CpuTimes where
  idle : Int
  total : Int
deriving DecidableEq, Repr

/-- One core's `totalDifference[i] ? idle / total : 0` term
(src/index.js line 119): a zero total delta is JS-falsy and yields 0
instead of a division. -/
def coreIdleFraction (idleDiff totalDiff : Int) : ℚ :=
  if totalDiff ≠ 0 then (idleDiff : ℚ) / (totalDiff : ℚ) else 0

/-- `x.toFixed(1)` re-read by `parseFloat`: the value rounded to the
nearest tenth, ties upward. -/
def round1 (q : ℚ) : ℚ := ((round (10 * q) : ℤ) : ℚ) / 10

/-- `getCpuUsage` (src/index.js lines 107-123) as a function of its two
per-core snapshots: per-core idle fractions from the counter deltas,
averaged across cores (0 when there are none), turned into a
utilization percentage and rounded to one decimal place. -/
def getCpuUsage (startMeasure endMeasure : List CpuTimes) : ℚ :=
  let idleDifference := List.zipWith (fun s e => e.idle - s.idle) startMeasure endMeasure
  let totalDifference := List.zipWith (fun s e => e.total - s.total) startMeasure endMeasure
  let idlePercent := List.zipWith coreIdleFraction idleDifference totalDifference
  let avgIdlePercent :=
    if idlePercent.length > 0 then idlePercent.sum / (idlePercent.length : ℚ) else 0
  round1 ((1 - avgIdlePercent) * 100)

/-- `parseInt` applied to the first `/(\d+)%/` match of a GPU field, 0
when there is no match (src/index.js lines 145-148). -/
def pctValue (s : String) : Nat := (matchPct s.toList).getD 0

/-- The GPU-aggregate derivation of `getSystemInfo` (src/index.js lines
135-155): among the current models, keep those whose gpu field is
truthy (non-empty), not "0%" and not "N/A"; when any remain, average
their parsed percentages, otherwise report 0. -/
def gpuAggregate (currentModelData : List ModelRecord) : ℚ :=
  if currentModelData.length > 0 then
    let gpuModels := currentModelData.filter fun m =>
      decide (m.gpu ≠ "") && decide (m.gpu ≠ "0%") && decide (m.gpu ≠ "N/A")
    if gpuModels.length > 0 then
      let gpuPercentages := gpuModels.map fun m => (pctValue m.gpu : ℚ)
      if gpuPercentages.length > 0 then
        gpuPercentages.sum / (gpuPercentages.length : ℚ)
      else 0
    else 0
  else 0

/-- `Math.round((totalMem - freeMem) / 1048576)`: whole-machine used
memory in megabytes (src/index.js lines 128-131). -/
def usedMemInMB (totalMem freeMem : Nat) : ℚ :=
  ((round (((totalMem : ℚ) - (freeMem : ℚ)) / (1024 * 1024)) : ℤ) : ℚ)

/-- The system snapshot `getSystemInfo` returns. -/
structure SysInfo where
  cpu : ℚ
  memory : ℚ
  gpu : ℚ
deriving DecidableEq, Repr

/-- `getSystemInfo` (src/index.js lines 125-166) as a function of the
sampler snapshots and OS memory readings: any failure of the counter
source is caught and replaced by the neutral snapshot 0/0/0; otherwise
the whole-machine CPU reading and used memory are combined with the
GPU aggregate over the current models. -/
def getSystemInfo (currentModelData : List ModelRecord)
    (cpuSrc : Except String (List CpuTimes × List CpuTimes))
    (totalMem freeMem : Nat) : SysInfo :=
  match cpuSrc with
  | .error _ => { cpu := 0, memory := 0, gpu := 0 }
  | .ok sample =>
    { cpu := getCpuUsage sample.1 sample.2,
      memory := usedMemInMB totalMem freeMem,
      gpu := gpuAggregate currentModelData }

/-- The configured history capacity (src/index.js line 71). -/
def historyLength : Nat := 60

/-- One history series: the parallel label and value sequences of a
chart data object. -/
structure Hist where
  x : List String
  y : List ℚ
deriving DecidableEq, Repr

/-- The `shift(); push(v)` pair applied to both sequences of a series
(src/index.js lines 329-345): drop the oldest element, append the
newest sample and its time label. -/
def pushHist (h : Hist) (v : ℚ) (t : String) : Hist :=
  { x := h.x.tail ++ [t], y := h.y.tail ++ [v] }

/-- A history series at startup: `historyLength` zero samples with
placeholder labels (src/index.js lines 74-93; the actual startup labels
are clock strings, irrelevant to every claim). -/
def initHist : Hist :=
  { x := List.replicate historyLength "", y := List.replicate historyLength 0 }

/-- The mutable state a refresh cycle touches: the three history series
and the shared `currentModelData` list. -/
structure DashState where
  cpuH : Hist
  gpuH : Hist
  memH : Hist
  currentModelData : List ModelRecord
deriving DecidableEq, Repr

/-- One refresh-cycle body `updateAll` (src/index.js lines 353-365) as
a function of its inputs for the cycle: the registry API outcome, the
parsed `ollama ps` map, the CPU-sampler outcome, the OS memory
readings, and the cycle's time label. It rebuilds `currentModelData`,
derives the system snapshot from it, and pushes the snapshot into the
three history series. -/
def updateAll (st : DashState) (api : Except String (List ListedModel)) (psInfo : PsMap)
    (cpuSrc : Except String (List CpuTimes × List CpuTimes))
    (totalMem freeMem : Nat) (currentTime : String) : DashState :=
  let cmd := getRunningModelsFull api psInfo
  let si := getSystemInfo cmd cpuSrc totalMem freeMem
  { cpuH := pushHist st.cpuH si.cpu currentTime,
    gpuH := pushHist st.gpuH si.gpu currentTime,
    memH := pushHist st.memH si.memory currentTime,
    currentModelData := cmd }

/-- The orchestrator's observable state: how many cycle bodies have
been started but not finished, plus the shared dashboard state. -/
structure OrchState where
  inFlight : Nat
  st : DashState
deriving DecidableEq, Repr

/-- A refresh trigger (the 2-second timer of src/index.js line 383 or
the manual-refresh key of lines 376-379): both handlers invoke
`updateAll()` unconditionally — the source has no in-flight flag, no
skip, and no pending-request queue — so a trigger always starts one
more concurrent cycle body. -/
def onTrigger (o : OrchState) : OrchState :=
  { o with inFlight := o.inFlight + 1 }

/-- The first shared-state step of a cycle body: the synchronous
assignment `currentModelData = await getRunningModels()` of
src/index.js line 355, writing the cycle's own merged list into the
shared module state. The body then suspends — the 100ms delay inside
`getCpuUsage` (line 112) — before reading the shared state back, so
another in-flight cycle's steps can run in between. -/
def assignModels (o : OrchState) (cmd : List ModelRecord) : OrchState :=
  { o with st := { o.st with currentModelData := cmd } }

/-- The resumption of a cycle body after its suspension:
`getSystemInfo` derives the GPU aggregate from the shared
`currentModelData` as it is at that moment (src/index.js line 138) —
not necessarily the list this cycle assigned, when an overlapping cycle
reassigned it during the suspension — and then the synchronous push
block (lines 329-345) appends one sample to each series in one
event-loop turn; the cycle body is then finished. -/
def finishCycle (o : OrchState)
    (cpuSrc : Except String (List CpuTimes × List CpuTimes))
    (totalMem freeMem : Nat) (currentTime : String) : OrchState :=
  let si := getSystemInfo o.st.currentModelData cpuSrc totalMem freeMem
  { inFlight := o.inFlight - 1,
    st := { cpuH := pushHist o.st.cpuH si.cpu currentTime,
            gpuH := pushHist o.st.gpuH si.gpu currentTime,
            memH := pushHist o.st.memH si.memory currentTime,
            currentModelData := o.st.currentModelData } }

/-- The orchestrator at startup: no cycle in flight, zero-filled
history series, no models. -/
def orchInit : OrchState :=
  { inFlight := 0,
    st := { cpuH := initHist, gpuH := initHist, memH := initHist, currentModelData := [] } }

/-- A sequence of per-cycle pushes applied to one history series. -/
def applyPushes (pushes : List (ℚ × String)) (h : Hist) : Hist :=
  pushes.foldl (fun a p => pushHist a p.1 p.2) h

/-- The aggregation domain as the claim words it: the running models
reporting a non-zero, non-N/A GPU percentage. -/
def runningGpuModels (models : List ModelRecord) : List ModelRecord :=
  models.filter fun m =>
    m.isRunning && decide (m.gpu ≠ "0%") && decide (m.gpu ≠ "N/A")


/-! ## Shared lemmas -/

theorem applyPushes_length :
    ∀ (pushes : List (ℚ × String)) (h : Hist),
      h.y.length = historyLength → h.x.length = historyLength →
      (applyPushes pushes h).y.length = historyLength ∧
      (applyPushes pushes h).x.length = historyLength
  | [], _, hy, hx => ⟨hy, hx⟩
  | p :: ps, h, hy, hx => by
    have step : (pushHist h p.1 p.2).y.length = historyLength ∧
        (pushHist h p.1 p.2).x.length = historyLength := by
      simp only [historyLength] at hy hx
      constructor <;>
        (simp only [pushHist, List.length_append, List.length_tail, List.length_cons,
          List.length_nil, historyLength]; omega)
    exact applyPushes_length ps (pushHist h p.1 p.2) step.1 step.2

theorem floorLogAux_pow_le :
    ∀ (fuel b : Nat), 0 < b → b ≤ fuel → 1024 ^ floorLogAux 1024 fuel b ≤ b
  | 0, b, hb, hle => by omega
  | fuel + 1, b, hb, hle => by
    rw [floorLogAux]
    by_cases h : b < 1024
    · rw [if_pos h]
      simpa using hb
    · rw [if_neg h]
      have hb' : 0 < b / 1024 := Nat.div_pos (le_of_not_lt h) (by norm_num)
      have hlt : b / 1024 < b := Nat.div_lt_self hb (by norm_num)
      have ih := floorLogAux_pow_le fuel (b / 1024) hb' (by omega)
      calc 1024 ^ (floorLogAux 1024 fuel (b / 1024) + 1)
          = 1024 ^ floorLogAux 1024 fuel (b / 1024) * 1024 := by rw [pow_succ]
        _ ≤ b / 1024 * 1024 := Nat.mul_le_mul_right _ ih
        _ ≤ b := Nat.div_mul_le_self b 1024

theorem floorLogAux_lt_pow :
    ∀ (fuel b : Nat), b ≤ fuel → b < 1024 ^ (floorLogAux 1024 fuel b + 1)
  | 0, b, hle => by
    have hb : b = 0 := by omega
    subst hb
    rw [floorLogAux]
    norm_num
  | fuel + 1, b, hle => by
    rw [floorLogAux]
    by_cases h : b < 1024
    · rw [if_pos h]
      simpa using h
    · rw [if_neg h]
      have hb : 0 < b := by omega
      have hlt : b / 1024 < b := Nat.div_lt_self hb (by norm_num)
      have ih := floorLogAux_lt_pow fuel (b / 1024) (by omega)
      have hmul : b < 1024 ^ (floorLogAux 1024 fuel (b / 1024) + 1) * 1024 :=
        (Nat.div_lt_iff_lt_mul (by norm_num : 0 < 1024)).mp ih
      calc b < 1024 ^ (floorLogAux 1024 fuel (b / 1024) + 1) * 1024 := hmul
        _ = 1024 ^ (floorLogAux 1024 fuel (b / 1024) + 1 + 1) := (pow_succ _ _).symm

theorem floorLog_pow_le {b : Nat} (hb : 0 < b) : 1024 ^ floorLog 1024 b ≤ b :=
  floorLogAux_pow_le b b hb le_rfl

theorem floorLog_lt_pow (b : Nat) : b < 1024 ^ (floorLog 1024 b + 1) :=
  floorLogAux_lt_pow b b le_rfl

theorem formatSize_pos (b : Nat) (hb : b ≠ 0) :
    formatSize (some b) =
      if floorLog 1024 b = 0 then
        toString b ++ " " ++ sizesList.getD (floorLog 1024 b) "undefined"
      else toFixedOne b (floorLog 1024 b) ++ " " ++ sizesList.getD (floorLog 1024 b) "undefined" := by
  simp only [formatSize, if_neg hb]

theorem zipWith_core_eq (sm em : List CpuTimes) :
    List.zipWith coreIdleFraction
        (List.zipWith (fun s e => e.idle - s.idle) sm em)
        (List.zipWith (fun s e => e.total - s.total) sm em) =
      (sm.zip em).map fun p => coreIdleFraction (p.2.idle - p.1.idle) (p.2.total - p.1.total) := by
  induction sm generalizing em with
  | nil => simp
  | cons s rest ih => cases em <;> simp [ih]

theorem coreIdleFraction_bounds (idleDiff totalDiff : Int)
    (h0 : 0 ≤ idleDiff) (h1 : idleDiff ≤ totalDiff) :
    0 ≤ coreIdleFraction idleDiff totalDiff ∧ coreIdleFraction idleDiff totalDiff ≤ 1 := by
  unfold coreIdleFraction
  by_cases h : totalDiff ≠ 0
  · rw [if_pos h]
    have htot : (0 : ℚ) < (totalDiff : ℚ) := by
      have : (0 : Int) < totalDiff := by omega
      exact_mod_cast this
    constructor
    · apply div_nonneg _ (le_of_lt htot)
      exact_mod_cast h0
    · rw [div_le_one htot]
      exact_mod_cast h1
  · rw [if_neg h]
    norm_num

theorem round1_bounds (q : ℚ) (h0 : 0 ≤ q) (h1 : q ≤ 100) :
    0 ≤ round1 q ∧ round1 q ≤ 100 := by
  unfold round1
  have r0 : (0 : ℤ) ≤ round (10 * q) := by
    rw [round_eq]
    apply Int.le_floor.mpr
    push_cast
    linarith
  have r1 : round (10 * q) ≤ 1000 := by
    rw [round_eq]
    have : ⌊10 * q + 1 / 2⌋ < 1001 := Int.floor_lt.mpr (by push_cast; linarith)
    omega
  constructor
  · apply div_nonneg _ (by norm_num : (0 : ℚ) ≤ 10)
    exact_mod_cast r0
  · rw [div_le_iff₀ (by norm_num : (0 : ℚ) < 10)]
    have : ((round (10 * q) : ℤ) : ℚ) ≤ 1000 := by exact_mod_cast r1
    linarith

theorem stringMk_ne_empty {l : List Char} (h : l ≠ []) : String.mk l ≠ "" := by
  intro he
  apply h
  have hd := congrArg String.data he
  simpa using hd

theorem string_append_pct_ne (s : String) : s ++ "%" ≠ "" := by
  intro he
  have hd := congrArg String.data he
  rw [String.data_append] at hd
  simp at hd

theorem objInsert_mem {m : PsMap} {k k' : String} {v e : PsEntry}
    (h : (k', e) ∈ objInsert m k v) : (k', e) ∈ m ∨ (k', e) = (k, v) := by
  unfold objInsert at h
  split at h
  · rcases List.mem_map.mp h with ⟨p, hp, heq⟩
    by_cases hpk : p.1 = k
    · rw [if_pos hpk] at heq
      exact Or.inr heq.symm
    · rw [if_neg hpk] at heq
      exact Or.inl (heq ▸ hp)
  · rcases List.mem_append.mp h with h1 | h1
    · exact Or.inl h1
    · exact Or.inr (List.mem_singleton.mp h1)

theorem objLookup_mem :
    ∀ {m : PsMap} {k : String} {e : PsEntry}, objLookup m k = some e → (k, e) ∈ m
  | [], _, _, h => by simp [objLookup] at h
  | p :: rest, k, e, h => by
    rw [objLookup] at h
    split at h
    · rename_i hpk
      rw [Option.some.injEq] at h
      have hp : p = (k, e) := by
        rw [← hpk, ← h]
      rw [hp]
      exact List.mem_cons_self _ _
    · exact List.mem_cons_of_mem _ (objLookup_mem h)

theorem parseProcessor_gpu_ne (p : List Char) : (parseProcessor p).2 ≠ "" := by
  unfold parseProcessor
  split
  · split
    · exact string_append_pct_ne _
    · intro h
      simpa using congrArg String.data h
  · split
    · split
      · intro h
        simpa using congrArg String.data h
      · intro h
        simpa using congrArg String.data h
    · intro h
      simpa using congrArg String.data h

theorem foldl_processRow_mem (np ip mp pp up : Int) :
    ∀ (rows : List (List Char)) (acc : PsMap) (k : String) (e : PsEntry),
      (k, e) ∈ rows.foldl (processRow np ip mp pp up) acc →
      (k, e) ∈ acc ∨
        (k ≠ "" ∧ ∃ line ∈ rows, k = String.mk (jsTrim (jsSubstring line np ip)))
  | [], _, _, _, h => Or.inl h
  | r :: rs, acc, k, e, h => by
    rw [List.foldl_cons] at h
    rcases foldl_processRow_mem np ip mp pp up rs (processRow np ip mp pp up acc r) k e h
      with h1 | h1
    · simp only [processRow] at h1
      split at h1
      · exact Or.inl h1
      · split at h1
        · rename_i hname
          rcases objInsert_mem h1 with h2 | h2
          · exact Or.inl h2
          · right
            have hk : k = String.mk (jsTrim (jsSubstring r np ip)) :=
              congrArg Prod.fst h2
            exact ⟨hk ▸ stringMk_ne_empty hname, r, List.mem_cons_self r rs, hk⟩
        · exact Or.inl h1
    · rcases h1.2 with ⟨line, hl, hk⟩
      exact Or.inr ⟨h1.1, line, List.mem_cons_of_mem r hl, hk⟩

theorem foldl_processRow_gpu (np ip mp pp up : Int) :
    ∀ (rows : List (List Char)) (acc : PsMap),
      (∀ x ∈ acc, (Prod.snd x).gpu ≠ "") →
      ∀ x ∈ rows.foldl (processRow np ip mp pp up) acc, (Prod.snd x).gpu ≠ ""
  | [], _, hacc => hacc
  | r :: rs, acc, hacc => by
    rw [List.foldl_cons]
    apply foldl_processRow_gpu np ip mp pp up rs
    intro x hx
    obtain ⟨k', e⟩ := x
    simp only [processRow] at hx
    split at hx
    · exact hacc _ hx
    · split at hx
      · rcases objInsert_mem hx with h2 | h2
        · exact hacc _ h2
        · rw [Prod.mk.injEq] at h2
          show e.gpu ≠ ""
          rw [h2.2]
          exact parseProcessor_gpu_ne _
      · exact hacc _ hx

theorem psInfo_gpu_ne (stdout : String) :
    ∀ x ∈ getOllamaPsInfo stdout, (Prod.snd x).gpu ≠ "" := by
  simp only [getOllamaPsInfo]
  split
  · simp
  · split
    · simp
    · apply foldl_processRow_gpu
      simp

/-! ## Claims -/

/-- Claim C1, counterexample: on the specification's literal two-line
input the Process-Table Parser does not return the mapping
`foo-model ↦ (4.2 GB, 100% gpu, 0% cpu)`. The single-space header puts
the column offsets at 0/5/8/13/23, which do not line up with the data
row, so the row is sliced into the key `"foo-m"` with committed memory
`"l   a"` and an unrecognized processor descriptor; the key
`"foo-model"` is absent. -/
theorem ps_parse_spec_example_misaligned :
    getOllamaPsInfo "NAME ID SIZE PROCESSOR UNTIL\nfoo-model   abc123   4.2 GB   100% GPU   5m" =
      [("foo-m", { committedMem := "l   a", cpu := "0%", gpu := "0%" })] ∧
    objLookup
      (getOllamaPsInfo "NAME ID SIZE PROCESSOR UNTIL\nfoo-model   abc123   4.2 GB   100% GPU   5m")
      "foo-model" = none := by
  decide

/-- Claim C1 as amended: for a two-line table whose data row is aligned
with the header labels (offsets 0/13/23/33/46), the parser returns
exactly the mapping `foo-model ↦ (committedMem "4.2 GB", cpu "0%",
gpu "100%")`. -/
theorem ps_parse_aligned_example :
    getOllamaPsInfo
      "NAME         ID        SIZE      PROCESSOR    UNTIL\nfoo-model    abc123    4.2 GB    100% GPU     5m" =
      [("foo-model", { committedMem := "4.2 GB", cpu := "0%", gpu := "100%" })] := by
  decide

/-- Claim C2: a push on a history series removes exactly the index-0
element of both the value and label sequences and appends the new
value/label at the end, and any sequence of pushes starting from the
configured capacity 60 keeps both lengths at 60. -/
theorem history_push_invariant :
    ∀ (h : Hist) (pushes : List (ℚ × String)),
      h.y.length = historyLength → h.x.length = historyLength →
      (∀ v t, pushHist h v t = { x := h.x.drop 1 ++ [t], y := h.y.drop 1 ++ [v] }) ∧
      (applyPushes pushes h).y.length = historyLength ∧
      (applyPushes pushes h).x.length = historyLength := by
  intro h pushes hy hx
  refine ⟨?_, applyPushes_length pushes h hy hx⟩
  intro v t
  simp [pushHist, List.drop_one]

/-- Witness for C2 at the startup series and one concrete push. -/
theorem history_push_invariant_witness :
    initHist.y.length = historyLength ∧ initHist.x.length = historyLength ∧
    (applyPushes [(5, "t")] initHist).y.length = historyLength ∧
    (applyPushes [(5, "t")] initHist).x.length = historyLength := by
  have hy : initHist.y.length = historyLength := by simp [initHist]
  have hx : initHist.x.length = historyLength := by simp [initHist]
  exact ⟨hy, hx, (history_push_invariant initHist [(5, "t")] hy hx).2⟩

/-- Claim C3: the Model Registry Fetcher's merge produces, for every
registry model, a record that copies the parser entry's committed
memory, cpu and gpu verbatim with `isRunning = true` when the mapping
contains the model's name, and defaults to the zero-size formatted
string with both percentages "0%" and `isRunning = false` when it does
not; a one-model registry with an empty parser mapping yields exactly
one such not-running record. -/
theorem merge_running_status_and_defaults :
    (∀ (ps : PsMap) (m : ListedModel),
      mergeModel ps m =
        { name := String.mk (jsSubstring m.name.toList 0 28),
          id := String.mk (jsSubstring m.digest.toList 0 12),
          diskSize := formatSize (some m.size),
          usedMem := match objLookup ps m.name with
            | some rd => rd.committedMem
            | none => formatSize (some 0),
          cpu := match objLookup ps m.name with
            | some rd => rd.cpu
            | none => "0%",
          gpu := match objLookup ps m.name with
            | some rd => rd.gpu
            | none => "0%",
          isRunning := (objLookup ps m.name).isSome }) ∧
    getRunningModels [{ name := "a", digest := "deadbeefdeadbeefdeadbeef", size := 1000000 }] [] =
      [{ name := "a", id := "deadbeefdead", diskSize := "976.6 KB",
         usedMem := "0 B", cpu := "0%", gpu := "0%", isRunning := false }] := by
  constructor
  · intro ps m
    cases h : objLookup ps m.name
    · simp only [mergeModel, h]
      rfl
    · simp [mergeModel, h]
  · decide

/-- Claim C4: a cycle whose registry API call rejects still completes —
`getRunningModels` returns the empty model list for every parser
outcome, and the history buffers are still advanced that cycle with the
whole-machine CPU sampler reading, the OS used-memory figure, and a GPU
aggregate of 0. -/
theorem cycle_api_failure_still_advances :
    ∀ (st : DashState) (msg : String) (ps : PsMap) (sm em : List CpuTimes)
      (totalMem freeMem : Nat) (t : String),
      getRunningModelsFull (.error msg) ps = [] ∧
      updateAll st (.error msg) ps (.ok (sm, em)) totalMem freeMem t =
        { cpuH := pushHist st.cpuH (getCpuUsage sm em) t,
          gpuH := pushHist st.gpuH 0 t,
          memH := pushHist st.memH (usedMemInMB totalMem freeMem) t,
          currentModelData := [] } := by
  intro st msg ps sm em totalMem freeMem t
  refine ⟨rfl, ?_⟩
  simp [updateAll, getRunningModelsFull, getRunningModels, getSystemInfo, gpuAggregate]

/-- Claim C5, counterexample: the implementation neither skips a tick
nor queues a pending request — two back-to-back triggers leave two
cycle bodies concurrently in flight, because both trigger handlers
invoke the cycle body unconditionally — and the two bodies' effects do
interleave: in the schedule where cycle 2's model-list assignment lands
during cycle 1's suspension (after cycle 1 assigned its own empty list,
before it read the shared list back), cycle 1's push records the GPU
aggregate 100 of cycle 2's model list, although cycle 1's own list
aggregates to 0 — so the end state is not the two cycles applied in
trigger order. -/
theorem trigger_no_overlap_guard_cex :
    (onTrigger (onTrigger orchInit)).inFlight = 2 ∧
    ¬ (onTrigger (onTrigger orchInit)).inFlight ≤ 1 ∧
    (finishCycle
        (assignModels (assignModels (onTrigger (onTrigger orchInit)) [])
          [{ name := "m", id := "x", diskSize := "4.2 GB", usedMem := "4.2 GB",
             cpu := "0%", gpu := "100%", isRunning := true }])
        (.ok ([], [])) 0 0 "t1").st.gpuH.y.getLast? = some 100 ∧
    gpuAggregate [] = 0 := by
  refine ⟨rfl, by decide, ?_, by decide⟩
  have hfil : List.filter
      (fun m : ModelRecord =>
        decide (m.gpu ≠ "") && decide (m.gpu ≠ "0%") && decide (m.gpu ≠ "N/A"))
      [{ name := "m", id := "x", diskSize := "4.2 GB", usedMem := "4.2 GB",
         cpu := "0%", gpu := "100%", isRunning := true }] =
      [{ name := "m", id := "x", diskSize := "4.2 GB", usedMem := "4.2 GB",
         cpu := "0%", gpu := "100%", isRunning := true }] := by decide
  have hpv : pctValue "100%" = 100 := by decide
  have hagg : gpuAggregate
      [{ name := "m", id := "x", diskSize := "4.2 GB", usedMem := "4.2 GB",
         cpu := "0%", gpu := "100%", isRunning := true }] = 100 := by
    simp [gpuAggregate, hfil, hpv]
  have hy : (finishCycle
      (assignModels (assignModels (onTrigger (onTrigger orchInit)) [])
        [{ name := "m", id := "x", diskSize := "4.2 GB", usedMem := "4.2 GB",
           cpu := "0%", gpu := "100%", isRunning := true }])
      (.ok ([], [])) 0 0 "t1").st.gpuH.y =
      (List.replicate historyLength (0 : ℚ)).tail ++
        [gpuAggregate
          [{ name := "m", id := "x", diskSize := "4.2 GB", usedMem := "4.2 GB",
             cpu := "0%", gpu := "100%", isRunning := true }]] := rfl
  rw [hy, hagg, List.getLast?_append_cons]
  rfl

/-- Claim C5 as amended: every trigger unconditionally starts one more
concurrent cycle body — there is no overlap guard — and a cycle's GPU
aggregate is computed from the shared model list as it stands when the
cycle resumes after its suspension, so overlapping cycles can observe
each other's assignments. What does hold: a cycle that does not overlap
any other (its resumption follows its own assignment directly) has
exactly the effect of the atomic cycle body `updateAll`, and every
completing cycle appends exactly one sample per series in a single
synchronous block. -/
theorem trigger_unconditional_and_solo_cycle_faithful :
    ∀ (o : OrchState) (api : Except String (List ListedModel)) (ps : PsMap)
      (cpuSrc : Except String (List CpuTimes × List CpuTimes))
      (totalMem freeMem : Nat) (t : String),
      (onTrigger o).inFlight = o.inFlight + 1 ∧
      (finishCycle (assignModels o (getRunningModelsFull api ps))
          cpuSrc totalMem freeMem t).st =
        updateAll o.st api ps cpuSrc totalMem freeMem t ∧
      (finishCycle o cpuSrc totalMem freeMem t).st.cpuH =
        pushHist o.st.cpuH
          (getSystemInfo o.st.currentModelData cpuSrc totalMem freeMem).cpu t ∧
      (finishCycle o cpuSrc totalMem freeMem t).st.gpuH =
        pushHist o.st.gpuH
          (getSystemInfo o.st.currentModelData cpuSrc totalMem freeMem).gpu t ∧
      (finishCycle o cpuSrc totalMem freeMem t).st.memH =
        pushHist o.st.memH
          (getSystemInfo o.st.currentModelData cpuSrc totalMem freeMem).memory t := by
  intro o api ps cpuSrc totalMem freeMem t
  exact ⟨rfl, rfl, rfl, rfl, rfl⟩

/-- Claim C7: a stdout with fewer than two lines, or whose header line
is missing any of the five expected column labels, makes the parser
return the empty mapping (the embedding is a total function — no branch
throws). -/
theorem ps_parse_bad_header_or_short_empty :
    ∀ stdout : String,
      ((jsSplitLines (jsTrim stdout.toList)).length < 2 → getOllamaPsInfo stdout = []) ∧
      (¬(jsIncludes (headerOf stdout) ("NAME".toList) ∧
         jsIncludes (headerOf stdout) ("ID".toList) ∧
         jsIncludes (headerOf stdout) ("SIZE".toList) ∧
         jsIncludes (headerOf stdout) ("PROCESSOR".toList) ∧
         jsIncludes (headerOf stdout) ("UNTIL".toList)) → getOllamaPsInfo stdout = []) := by
  intro stdout
  constructor
  · intro h
    simp only [getOllamaPsInfo]
    rw [if_pos h]
  · intro h
    simp only [headerOf] at h
    by_cases h2 : (jsSplitLines (jsTrim stdout.toList)).length < 2
    · simp only [getOllamaPsInfo]
      rw [if_pos h2]
    · have hok : headerOk ((jsSplitLines (jsTrim stdout.toList)).headD []) = false := by
        rw [Bool.eq_false_iff]
        intro hc
        rw [headerOk, Bool.and_eq_true, Bool.and_eq_true, Bool.and_eq_true,
          Bool.and_eq_true] at hc
        exact h ⟨hc.1.1.1.1, hc.1.1.1.2, hc.1.1.2, hc.1.2, hc.2⟩
      simp only [getOllamaPsInfo]
      rw [if_neg h2, hok]
      simp

/-- Witness for C7: a header missing PROCESSOR and a no-line output
both yield the empty mapping. -/
theorem ps_parse_bad_header_or_short_empty_witness :
    getOllamaPsInfo "NAME ID SIZE UNTIL\nfoo-model some-id 4.2 GB 5m" = [] ∧
    getOllamaPsInfo "" = [] := by
  exact ⟨(ps_parse_bad_header_or_short_empty _).2 (by decide),
         (ps_parse_bad_header_or_short_empty "").1 (by decide)⟩

/-- Claim C6: `formatSize` maps null-like input to the dash sentinel,
zero to "0 B", and every positive byte count (below the 1024^5 ceiling
of the five-unit table) to its value scaled by the unit of index
`floor (log_1024 b)` — the unique `i ≤ 4` with `1024^i ≤ b < 1024^(i+1)`
— printed with one decimal place, except the raw-byte tier which is
printed as an integer. -/
theorem format_size_unit_selection :
    formatSize none = "-" ∧ formatSize (some 0) = "0 B" ∧
    ∀ b : Nat, 0 < b → b < 1024 ^ 5 →
      ∃ i : Nat, i ≤ 4 ∧ 1024 ^ i ≤ b ∧ b < 1024 ^ (i + 1) ∧
        formatSize (some b) =
          (if i = 0 then toString b ++ " B"
           else toFixedOne b i ++ " " ++ sizesList.getD i "undefined") := by
  refine ⟨rfl, rfl, ?_⟩
  intro b hb hlt
  refine ⟨floorLog 1024 b, ?_, floorLog_pow_le hb, floorLog_lt_pow b, ?_⟩
  · have h1 : (1024 : Nat) ^ floorLog 1024 b < 1024 ^ 5 :=
      lt_of_le_of_lt (floorLog_pow_le hb) hlt
    have h2 : floorLog 1024 b < 5 :=
      (Nat.pow_lt_pow_iff_right (by norm_num)).mp h1
    omega
  · have hsp : (" " ++ "B" : String) = " B" := rfl
    have hB : sizesList.getD 0 "undefined" = "B" := rfl
    by_cases hi : floorLog 1024 b = 0
    · rw [if_pos hi, formatSize_pos b hb.ne', if_pos hi, hi, hB, String.append_assoc, hsp]
    · rw [if_neg hi, formatSize_pos b hb.ne', if_neg hi]

/-- Witness for C6 at the concrete byte count 5000. -/
theorem format_size_unit_selection_witness :
    0 < 5000 ∧ 5000 < 1024 ^ 5 ∧
    ∃ i : Nat, i ≤ 4 ∧ 1024 ^ i ≤ 5000 ∧ 5000 < 1024 ^ (i + 1) ∧
      formatSize (some 5000) =
        (if i = 0 then toString 5000 ++ " B"
         else toFixedOne 5000 i ++ " " ++ sizesList.getD i "undefined") :=
  ⟨by norm_num, by norm_num,
   format_size_unit_selection.2.2 5000 (by norm_num) (by norm_num)⟩

/-- Claim C9: whenever every core's idle delta lies between 0 and its
total delta, the CPU sampler's result lies in [0, 100]; its result is
always an integer number of tenths (one decimal place); a core with a
zero total delta contributes an idle fraction of 0 rather than a
division fault; and a failing counter source makes `getSystemInfo`
return the neutral 0/0/0 snapshot instead of propagating the fault. -/
theorem cpu_usage_bounds_and_fallback :
    (∀ (sm em : List CpuTimes),
      (∀ p ∈ sm.zip em,
        0 ≤ p.2.idle - p.1.idle ∧ p.2.idle - p.1.idle ≤ p.2.total - p.1.total) →
      0 ≤ getCpuUsage sm em ∧ getCpuUsage sm em ≤ 100) ∧
    (∀ idleDiff : Int, coreIdleFraction idleDiff 0 = 0) ∧
    (∀ (cmd : List ModelRecord) (msg : String) (totalMem freeMem : Nat),
      getSystemInfo cmd (.error msg) totalMem freeMem = { cpu := 0, memory := 0, gpu := 0 }) ∧
    (∀ (sm em : List CpuTimes), ∃ n : ℤ, getCpuUsage sm em = (n : ℚ) / 10) := by
  refine ⟨?_, ?_, ?_, ?_⟩
  · intro sm em hp
    have hgc : getCpuUsage sm em =
        round1 ((1 -
          (if 0 < ((sm.zip em).map fun p =>
                coreIdleFraction (p.2.idle - p.1.idle) (p.2.total - p.1.total)).length
           then ((sm.zip em).map fun p =>
                coreIdleFraction (p.2.idle - p.1.idle) (p.2.total - p.1.total)).sum /
              (((sm.zip em).map fun p =>
                coreIdleFraction (p.2.idle - p.1.idle) (p.2.total - p.1.total)).length : ℚ)
           else 0)) * 100) := by
      simp only [getCpuUsage]
      rw [zipWith_core_eq]
    set l := (sm.zip em).map fun p =>
      coreIdleFraction (p.2.idle - p.1.idle) (p.2.total - p.1.total) with hldef
    have hmem : ∀ x ∈ l, 0 ≤ x ∧ x ≤ 1 := by
      intro x hx
      rcases List.mem_map.mp hx with ⟨p, hpmem, rfl⟩
      exact coreIdleFraction_bounds _ _ (hp p hpmem).1 (hp p hpmem).2
    have havg : 0 ≤ (if 0 < l.length then l.sum / (l.length : ℚ) else 0) ∧
        (if 0 < l.length then l.sum / (l.length : ℚ) else 0) ≤ 1 := by
      by_cases h : 0 < l.length
      · simp only [if_pos h]
        have hs0 : 0 ≤ l.sum := List.sum_nonneg fun x hx => (hmem x hx).1
        have hs1 : l.sum ≤ (l.length : ℚ) := by
          have := List.sum_le_card_nsmul l 1 fun x hx => (hmem x hx).2
          simpa using this
        have hlpos : (0 : ℚ) < (l.length : ℚ) := by exact_mod_cast h
        exact ⟨div_nonneg hs0 (le_of_lt hlpos), (div_le_one hlpos).mpr hs1⟩
      · simp only [if_neg h]
        norm_num
    rw [hgc]
    exact round1_bounds _ (by nlinarith [havg.1, havg.2]) (by nlinarith [havg.1, havg.2])
  · intro idleDiff
    simp [coreIdleFraction]
  · intro cmd msg totalMem freeMem
    rfl
  · intro sm em
    simp only [getCpuUsage, round1]
    exact ⟨_, rfl⟩

/-- Witness for C9 at one core with idle delta 5 and total delta 10. -/
theorem cpu_usage_bounds_and_fallback_witness :
    0 ≤ getCpuUsage [{ idle := 0, total := 0 }] [{ idle := 5, total := 10 }] ∧
    getCpuUsage [{ idle := 0, total := 0 }] [{ idle := 5, total := 10 }] ≤ 100 :=
  cpu_usage_bounds_and_fallback.1 _ _ (by decide)

/-- Claim C8: for every parser stdout and registry list, the per-cycle
GPU aggregate over the merged records equals the arithmetic mean of the
parsed GPU percentages of exactly the running models whose gpu field is
neither "0%" nor "N/A" when at least one exists, and 0 otherwise —
the source's truthy-and-non-zero-and-non-N/A filter coincides with that
set because models absent from the process table always carry
gpu = "0%" and parser entries never carry an empty gpu field. -/
theorem gpu_aggregate_mean_over_running :
    ∀ (stdout : String) (ms : List ListedModel),
      gpuAggregate (getRunningModels ms (getOllamaPsInfo stdout)) =
        if 0 < (runningGpuModels (getRunningModels ms (getOllamaPsInfo stdout))).length then
          ((runningGpuModels (getRunningModels ms (getOllamaPsInfo stdout))).map
              fun m => (pctValue m.gpu : ℚ)).sum /
            ((runningGpuModels (getRunningModels ms (getOllamaPsInfo stdout))).length : ℚ)
        else 0 := by
  intro stdout ms
  have hcongr :
      (getRunningModels ms (getOllamaPsInfo stdout)).filter
          (fun m => decide (m.gpu ≠ "") && decide (m.gpu ≠ "0%") && decide (m.gpu ≠ "N/A")) =
        runningGpuModels (getRunningModels ms (getOllamaPsInfo stdout)) := by
    unfold runningGpuModels
    apply List.filter_congr
    intro x hx
    rcases List.mem_map.mp hx with ⟨m, hm, rfl⟩
    cases h : objLookup (getOllamaPsInfo stdout) m.name
    · simp only [mergeModel, h, Option.isSome_none]
      decide
    · rename_i entry
      have hne : entry.gpu ≠ "" :=
        psInfo_gpu_ne stdout (m.name, entry) (objLookup_mem h)
      simp only [mergeModel, h, Option.isSome_some]
      rw [decide_eq_true hne]
  simp only [gpuAggregate]
  rw [hcongr]
  by_cases hm : 0 < (getRunningModels ms (getOllamaPsInfo stdout)).length
  · rw [if_pos hm]
    by_cases hs : 0 < (runningGpuModels (getRunningModels ms (getOllamaPsInfo stdout))).length
    · simp only [List.length_map, if_pos hs]
    · simp only [List.length_map, if_neg hs]
  · rw [if_neg hm]
    have hms : getRunningModels ms (getOllamaPsInfo stdout) = [] := by
      cases hgr : getRunningModels ms (getOllamaPsInfo stdout) with
      | nil => rfl
      | cons a l => rw [hgr] at hm; simp at hm
    rw [hms]
    rfl

/-- Claim C10: every key of the parser's returned mapping is non-empty
and equals the trimmed name-column slice of some data row of the input;
in particular blank rows and rows whose name slice trims to the empty
string contribute no entry. -/
theorem ps_parse_keys_from_rows :
    ∀ (stdout : String) (k : String) (e : PsEntry),
      (k, e) ∈ getOllamaPsInfo stdout →
      k ≠ "" ∧ ∃ line ∈ (jsSplitLines (jsTrim stdout.toList)).drop 1,
        k = String.mk (jsTrim (jsSubstring line (namePosOf stdout) (idPosOf stdout))) := by
  intro stdout k e h
  simp only [namePosOf, idPosOf, headerOf]
  simp only [getOllamaPsInfo] at h
  split at h
  · simp at h
  · split at h
    · simp at h
    · rcases foldl_processRow_mem _ _ _ _ _ _ _ _ _ h with h1 | h1
      · simp at h1
      · exact h1

/-- Witness for C10 at a concrete aligned table. -/
theorem ps_parse_keys_from_rows_witness :
    (("foo-model", ({ committedMem := "4.2 GB", cpu := "0%", gpu := "100%" } : PsEntry)) ∈
      getOllamaPsInfo
        "NAME         ID        SIZE      PROCESSOR    UNTIL\nfoo-model    abc123    4.2 GB    100% GPU     5m") ∧
    ("foo-model" ≠ "" ∧
      ∃ line ∈ (jsSplitLines (jsTrim
          ("NAME         ID        SIZE      PROCESSOR    UNTIL\nfoo-model    abc123    4.2 GB    100% GPU     5m" : String).toList)).drop 1,
        "foo-model" = String.mk (jsTrim (jsSubstring line
          (namePosOf "NAME         ID        SIZE      PROCESSOR    UNTIL\nfoo-model    abc123    4.2 GB    100% GPU     5m")
          (idPosOf "NAME         ID        SIZE      PROCESSOR    UNTIL\nfoo-model    abc123    4.2 GB    100% GPU     5m")))) :=
  ⟨by decide,
   ps_parse_keys_from_rows _ "foo-model"
     { committedMem := "4.2 GB", cpu := "0%", gpu := "100%" } (by decide)⟩
